import Mathlib

/-!
Verification of the selection-state, persistence, fetch and render logic of
`src/script.js` (a browser client for a cryptocurrency market-data API).

The JavaScript values that flow through `JSON.parse` / `JSON.stringify` and
through property access are modelled by the inductive type `JsValue`.
A `localStorage` cell is modelled by the `JSON.parse`-class of its content
(`JStored`): `absent` stands for a missing key (`getItem` returns `null`),
`malformed` for a string `JSON.parse` rejects (it throws), and `val j` for a
string that parses to the value `j`.  `JSON.stringify` is implemented
executably (`stringifyJson`) so that statements about the stored text can be
evaluated; `setItem k (stringify v)` leaves the cell in class `val v`.
-/

/-- A JavaScript value as it can appear in this program: the JSON values
plus `undefined` (the result of reading an absent property).  Numbers are
modelled as integers; no claim depends on non-integer arithmetic. -/
inductive JsValue where
  | undefined : JsValue
  | null : JsValue
  | bool (b : Bool) : JsValue
  | num (n : Int) : JsValue
  | str (s : String) : JsValue
  | arr (xs : List JsValue) : JsValue
  | obj (fields : List (String × JsValue)) : JsValue

/-- JavaScript truthiness, as used by `||` in `script.js` lines 13 and 17. -/
def jsTruthy : JsValue → Bool
  | .undefined => false
  | .null => false
  | .bool b => b
  | .num n => n != 0
  | .str s => s != ""
  | .arr _ => true
  | .obj _ => true

/-- The JavaScript `a || b` operator: `a` if truthy, else `b`. -/
def jsOr (a b : JsValue) : JsValue :=
  if jsTruthy a then a else b

/-- JavaScript property read `v[k]`: field lookup on an object, `undefined`
for a key not present (and for the keys this program reads on any other
truthy primitive value). -/
def getProp (v : JsValue) (k : String) : JsValue :=
  match v with
  | .obj fields =>
    match fields.find? (fun p => p.1 = k) with
    | some p => p.2
    | none => .undefined
  | _ => .undefined

/-- JavaScript property write `v[k] = x` (sloppy mode): on an object the
existing field is overwritten in place, otherwise the field is appended;
on a primitive the assignment is silently ignored. -/
def setProp (v : JsValue) (k : String) (x : JsValue) : JsValue :=
  match v with
  | .obj fields =>
    if fields.any (fun p => p.1 = k) then
      .obj (fields.map (fun p => if p.1 = k then (k, x) else p))
    else
      .obj (fields ++ [(k, x)])
  | other => other

/-- Escape one character the way `JSON.stringify` escapes characters inside
a string literal. -/
def escapeChar (c : Char) : String :=
  if c = '"' then "\\\""
  else if c = '\\' then "\\\\"
  else if c = '\n' then "\\n"
  else if c = '\t' then "\\t"
  else if c = '\r' then "\\r"
  else if c.toNat < 32 then
    "\\u00" ++ String.mk [Nat.digitChar (c.toNat / 16), Nat.digitChar (c.toNat % 16)]
  else String.singleton c

/-- `JSON.stringify` of a string value. -/
def stringifyStr (s : String) : String :=
  "\"" ++ String.join (s.data.map escapeChar) ++ "\""

mutual
/-- `JSON.stringify` of a value.  A top-level `undefined` is rendered as it
is inside an array (`"null"`); no value this program stores is `undefined`. -/
def stringifyJson : JsValue → String
  | .undefined => "null"
  | .null => "null"
  | .bool true => "true"
  | .bool false => "false"
  | .num n => toString n
  | .str s => stringifyStr s
  | .arr xs => "[" ++ stringifyArr xs ++ "]"
  | .obj fields => "\x7b" ++ stringifyObj fields ++ "\x7d"

/-- Comma-separated stringification of array elements. -/
def stringifyArr : List JsValue → String
  | [] => ""
  | [x] => stringifyJson x
  | x :: xs => stringifyJson x ++ "," ++ stringifyArr xs

/-- Comma-separated stringification of object fields. -/
def stringifyObj : List (String × JsValue) → String
  | [] => ""
  | [(k, v)] => stringifyStr k ++ ":" ++ stringifyJson v
  | (k, v) :: fs => stringifyStr k ++ ":" ++ stringifyJson v ++ "," ++ stringifyObj fs
end

/-- A `localStorage` cell, abstracted by the `JSON.parse`-class of its
content: `absent` (no such key, `getItem` returns `null`; `JSON.parse(null)`
yields the value `null`), `malformed` (a string `JSON.parse` throws on), or
`val j` (a string that parses to `j`; in particular `setItem` of
`stringifyJson j` leaves the cell in this class). -/
inductive JStored where
  | absent : JStored
  | malformed : JStored
  | val (j : JsValue) : JStored

/-- The text stored in a cell written by `updateLocal`: a cell in class
`val j` written by `setItem k (JSON.stringify j)` holds `stringifyJson j`. -/
def cellText : JStored → Option String
  | .absent => none
  | .malformed => none
  | .val j => some (stringifyJson j)

/-- `JSON.parse(localStorage.getItem(k))`: throws on malformed content;
an absent key gives `JSON.parse(null) = null`. -/
def parseCell : JStored → Except Unit JsValue
  | .absent => .ok .null
  | .malformed => .error ()
  | .val j => .ok j

/-- The default preference record of `script.js` lines 17-20:
`{ show24h: false, sortOrder: 'market_cap_desc' }`. -/
def defaultPrefs : JsValue :=
  .obj [("show24h", .bool false), ("sortOrder", .str "market_cap_desc")]

/-- Startup load (lines 13 and 17): `JSON.parse(getItem(k)) || fallback` for
the two keys.  A parse failure on either key throws out of the script. -/
def loadState (storeSel storePrefs : JStored) : Except Unit (JsValue × JsValue) := do
  let sel ← parseCell storeSel
  let prefs ← parseCell storePrefs
  .ok (jsOr sel (.arr []), jsOr prefs defaultPrefs)

/-- `JSON.stringify(selectedCoins)` operates on the selection array: as a
JSON value it is the array of the identifier strings. -/
def encodeSelected (sel : List String) : JsValue :=
  .arr (sel.map .str)

/-- The mutable program state: the module-level variables `selectedCoins`
and `userPrefs`, the two `localStorage` cells, and the log of `alert` calls
(modelling the blocking notices shown to the user). -/
structure AppState where
  selectedCoins : List String
  userPrefs : JsValue
  storeSelected : JStored
  storePrefs : JStored
  alerts : List String

/-- `updateLocal` (lines 145-148): serialize both the selection and the
preferences back to their `localStorage` keys. -/
def updateLocal (s : AppState) : AppState :=
  { s with
    storeSelected := .val (encodeSelected s.selectedCoins)
    storePrefs := .val s.userPrefs }

/-- The capacity notice of line 86. -/
def capacityMsg : String := "You can only compare up to 5 coins."

/-- `toggleCoin` (lines 77-94): remove the id if present, else append it if
fewer than 5 are selected, else alert; then `updateLocal` (the trailing
`loadData()` re-render does not change this state). -/
def toggleCoin (id : String) (s : AppState) : AppState :=
  let s1 :=
    if s.selectedCoins.contains id then
      { s with selectedCoins := s.selectedCoins.filter (fun c => c != id) }
    else if s.selectedCoins.length < 5 then
      { s with selectedCoins := s.selectedCoins ++ [id] }
    else
      { s with alerts := s.alerts ++ [capacityMsg] }
  updateLocal s1

/-- `removeCoin` (lines 132-139): filter the id out, then `updateLocal`. -/
def removeCoin (id : String) (s : AppState) : AppState :=
  updateLocal { s with selectedCoins := s.selectedCoins.filter (fun c => c != id) }

/-- The `change` listener of the 24h checkbox (lines 153-157):
`userPrefs.show24h = checked`, then `updateLocal`. -/
def setShow24h (b : Bool) (s : AppState) : AppState :=
  updateLocal { s with userPrefs := setProp s.userPrefs "show24h" (.bool b) }

/-- The `change` listener of the sort dropdown (lines 160-164):
`userPrefs.sortOrder = value`, then `updateLocal`. -/
def setSortOrder (v : String) (s : AppState) : AppState :=
  updateLocal { s with userPrefs := setProp s.userPrefs "sortOrder" (.str v) }

/-- A selection-mutating user interaction: clicking a coin card
(`toggleCoin`) or a Remove button (`removeCoin`). -/
inductive SelOp where
  | toggle (id : String) : SelOp
  | remove (id : String) : SelOp

/-- Apply one selection operation. -/
def applySelOp (op : SelOp) (s : AppState) : AppState :=
  match op with
  | .toggle id => toggleCoin id s
  | .remove id => removeCoin id s

/-- Apply a sequence of selection operations, left to right. -/
def applySelOps (ops : List SelOp) (s : AppState) : AppState :=
  ops.foldl (fun t op => applySelOp op t) s

/-- Any of the four state-mutating operations. -/
inductive MutOp where
  | toggle (id : String) : MutOp
  | remove (id : String) : MutOp
  | show24h (b : Bool) : MutOp
  | sortOrder (v : String) : MutOp

/-- Apply one mutating operation. -/
def applyMutOp (op : MutOp) (s : AppState) : AppState :=
  match op with
  | .toggle id => toggleCoin id s
  | .remove id => removeCoin id s
  | .show24h b => setShow24h b s
  | .sortOrder v => setSortOrder v s

/-- A convenient concrete state: the given selection, default preferences,
storage consistent with them, no alerts shown. -/
def mkState (sel : List String) : AppState :=
  { selectedCoins := sel
    userPrefs := defaultPrefs
    storeSelected := .val (encodeSelected sel)
    storePrefs := .val defaultPrefs
    alerts := [] }

/-- The state of a fresh session with empty storage: empty selection and
default preferences (the fallbacks of lines 13 and 17). -/
def initialState : AppState :=
  { selectedCoins := []
    userPrefs := defaultPrefs
    storeSelected := .absent
    storePrefs := .absent
    alerts := [] }

/-- A coin record as consumed by the renderer.  Numeric fields are modelled
as integers (no claim computes with non-integer values); a `none` 24h change
models the API returning `null` for that field. -/
structure Coin where
  id : String
  name : String
  symbol : String
  current_price : Int
  price_change_percentage_24h : Option Int
  market_cap : Int

/-- `Number.prototype.toFixed(2)` on an integer value: JavaScript renders
`(5).toFixed(2)` as `"5.00"`. -/
def toFixed2 (n : Int) : String :=
  toString n ++ ".00"

/-- Group a reversed digit list into blocks of three separated by commas. -/
def groupRev : List Char → List Char
  | [] => []
  | d :: ds =>
    if ds.length < 3 then d :: ds
    else (d :: ds.take 2) ++ ',' :: groupRev (ds.drop 2)
termination_by ds => ds.length
decreasing_by
  simp only [List.length_drop, List.length_cons]
  omega

/-- `Number.prototype.toLocaleString()` on an integer value, in the en-US
default locale: decimal digits grouped in threes by commas. -/
def toLocaleString (n : Int) : String :=
  (if n < 0 then "-" else "") ++ String.mk (groupRev (toString n.natAbs).data.reverse).reverse

/-- The 24h-change fragment of a card template (lines 60 and 115):
included only when `userPrefs.show24h` is set; formatting a `null` change
throws a `TypeError` (`null.toFixed` does not exist). -/
def changeFragment (show24h : Bool) (change : Option Int) : Except Unit String :=
  if show24h then
    match change with
    | some n => .ok ("<p>24h Change: " ++ toFixed2 n ++ "%</p>")
    | none => .error ()
  else
    .ok ""

/-- The inner HTML of one full-list card (`renderCryptoList`, lines 57-62). -/
def cryptoCardHtml (show24h : Bool) (coin : Coin) : Except Unit String := do
  let frag ← changeFragment show24h coin.price_change_percentage_24h
  .ok ("<h3>" ++ coin.name ++ " (" ++ coin.symbol.toUpper ++ ")</h3>"
    ++ "<p>Price: $" ++ toString coin.current_price ++ "</p>"
    ++ frag
    ++ "<p>Market Cap: $" ++ toLocaleString coin.market_cap ++ "</p>")

/-- `renderCryptoList` (lines 48-70): one card per coin, with the row class
of line 54; a thrown formatting error aborts the loop. -/
def renderCryptoList (show24h : Bool) (coins : List Coin) :
    Except Unit (List (String × String)) :=
  (coins.enum).mapM (fun p => do
    let html ← cryptoCardHtml show24h p.2
    .ok ("crypto-card row-" ++ toString (p.1 % 3), html))

/-- The inner HTML of one selected-list card (`renderSelected`, lines 112-117),
including the Remove button markup. -/
def selectedCardHtml (show24h : Bool) (coin : Coin) : Except Unit String := do
  let frag ← changeFragment show24h coin.price_change_percentage_24h
  .ok ("<strong>" ++ coin.name ++ "</strong>"
    ++ "<p>Price: $" ++ toString coin.current_price ++ "</p>"
    ++ frag
    ++ "<button onclick=\"removeCoin('" ++ coin.id ++ "')\">Remove</button>")

/-- `renderSelected` (lines 100-125): filter the fetched coins to the
selected ids, render one card per match, then set
`compareBtn.disabled = selectedCoins.length !== 5`.  The returned Boolean is
the `disabled` value; a thrown formatting error aborts before it is set. -/
def renderSelected (show24h : Bool) (sel : List String) (coins : List Coin) :
    Except Unit (List String × Bool) := do
  let cards ← (coins.filter (fun c => sel.contains c.id)).mapM (selectedCardHtml show24h)
  .ok (cards, sel.length != 5)

/-- The market-data endpoint of line 2. -/
def API_ENDPOINT : String := "https://api.coingecko.com/api/v3/coins/markets"

/-- JavaScript string coercion, as applied by the template literal of
line 34 to `userPrefs.sortOrder`. -/
def jsToString : JsValue → String
  | .undefined => "undefined"
  | .null => "null"
  | .bool true => "true"
  | .bool false => "false"
  | .num n => toString n
  | .str s => s
  | .arr _ => ""
  | .obj _ => "[object Object]"

/-- The request URL built by `loadData` (line 34). -/
def loadDataUrl (prefs : JsValue) : String :=
  API_ENDPOINT ++ "?vs_currency=usd&order=" ++ jsToString (getProp prefs "sortOrder")
    ++ "&per_page=50&page=1"

/-- The HTTP requests issued by one `loadData` cycle (lines 31-42): the
single `fetch` of line 34. -/
def loadDataRequests (prefs : JsValue) : List String :=
  [loadDataUrl prefs]

/-! ### Basic facts about the operations -/

theorem updateLocal_selectedCoins (s : AppState) :
    (updateLocal s).selectedCoins = s.selectedCoins := rfl

theorem updateLocal_userPrefs (s : AppState) :
    (updateLocal s).userPrefs = s.userPrefs := rfl

theorem updateLocal_alerts (s : AppState) :
    (updateLocal s).alerts = s.alerts := rfl

/-- The selection after `toggleCoin`, by the three branches of lines 78-87. -/
theorem toggleCoin_selectedCoins (id : String) (s : AppState) :
    (toggleCoin id s).selectedCoins =
      if s.selectedCoins.contains id then s.selectedCoins.filter (fun c => c != id)
      else if s.selectedCoins.length < 5 then s.selectedCoins ++ [id]
      else s.selectedCoins := by
  unfold toggleCoin updateLocal
  split_ifs <;> rfl

/-- The alert log after `toggleCoin`: extended exactly in the capacity
branch of line 86. -/
theorem toggleCoin_alerts (id : String) (s : AppState) :
    (toggleCoin id s).alerts =
      if s.selectedCoins.contains id then s.alerts
      else if s.selectedCoins.length < 5 then s.alerts
      else s.alerts ++ [capacityMsg] := by
  unfold toggleCoin updateLocal
  split_ifs <;> rfl

theorem removeCoin_selectedCoins (id : String) (s : AppState) :
    (removeCoin id s).selectedCoins = s.selectedCoins.filter (fun c => c != id) := rfl

theorem removeCoin_alerts (id : String) (s : AppState) :
    (removeCoin id s).alerts = s.alerts := rfl

/-- After any mutating operation the two cells hold exactly the
stringifications of the in-memory selection and preferences (every
operation ends in `updateLocal`). -/
theorem applyMutOp_store (op : MutOp) (s : AppState) :
    (applyMutOp op s).storeSelected = .val (encodeSelected (applyMutOp op s).selectedCoins) ∧
    (applyMutOp op s).storePrefs = .val (applyMutOp op s).userPrefs := by
  cases op with
  | toggle id =>
    refine ⟨?_, rfl⟩
    unfold applyMutOp toggleCoin updateLocal
    split_ifs <;> rfl
  | remove id => exact ⟨rfl, rfl⟩
  | show24h b => exact ⟨rfl, rfl⟩
  | sortOrder v => exact ⟨rfl, rfl⟩

/-- `setProp` does not change truthiness (an object stays an object, a
primitive is unchanged). -/
theorem jsTruthy_setProp (v : JsValue) (k : String) (x : JsValue) :
    jsTruthy (setProp v k x) = jsTruthy v := by
  cases v <;> try rfl
  case obj fields =>
    by_cases h : (fields.any fun p => p.1 = k) = true
    · simp only [setProp, if_pos h]
      rfl
    · simp only [setProp, if_neg h]
      rfl

/-- The Selection Set invariant of the spec: at most five entries, no
duplicate identifier. -/
def SelInv (l : List String) : Prop := l.length ≤ 5 ∧ l.Nodup

/-- One toggle or remove preserves the Selection Set invariant. -/
theorem selInv_applySelOp (op : SelOp) (s : AppState) (h : SelInv s.selectedCoins) :
    SelInv (applySelOp op s).selectedCoins := by
  obtain ⟨hlen, hnd⟩ := h
  cases op with
  | toggle id =>
    rw [applySelOp, toggleCoin_selectedCoins]
    by_cases hc : s.selectedCoins.contains id = true
    · rw [if_pos hc]
      exact ⟨le_trans (List.length_filter_le _ _) hlen, hnd.filter _⟩
    · rw [if_neg hc]
      by_cases hl : s.selectedCoins.length < 5
      · rw [if_pos hl]
        have hid : id ∉ s.selectedCoins := fun hm => hc (List.elem_iff.mpr hm)
        constructor
        · simp only [List.length_append, List.length_cons, List.length_nil]
          omega
        · simp [List.nodup_append, hnd, hid]
      · rw [if_neg hl]
        exact ⟨hlen, hnd⟩
  | remove id =>
    rw [applySelOp, removeCoin_selectedCoins]
    exact ⟨le_trans (List.length_filter_le _ _) hlen, hnd.filter _⟩

/-- Invariant preservation along a whole operation sequence. -/
theorem selInv_applySelOps (ops : List SelOp) (s : AppState) (h : SelInv s.selectedCoins) :
    SelInv (applySelOps ops s).selectedCoins := by
  induction ops generalizing s with
  | nil => exact h
  | cons op ops ih =>
    rw [applySelOps, List.foldl_cons]
    exact ih (applySelOp op s) (selInv_applySelOp op s h)

/-- C1: For every sequence of toggle and remove operations starting from an
empty Selection Set, the Selection Set's length never exceeds 5 and it never
contains a duplicate identifier. -/
theorem selection_bounded_and_nodup (ops : List SelOp) :
    (applySelOps ops initialState).selectedCoins.length ≤ 5 ∧
    (applySelOps ops initialState).selectedCoins.Nodup :=
  selInv_applySelOps ops initialState ⟨by simp [initialState], by simp [initialState]⟩

theorem toggleCoin_userPrefs (id : String) (s : AppState) :
    (toggleCoin id s).userPrefs = s.userPrefs := by
  unfold toggleCoin updateLocal
  split_ifs <;> rfl

theorem removeCoin_userPrefs (id : String) (s : AppState) :
    (removeCoin id s).userPrefs = s.userPrefs := rfl

/-- Truthiness of the in-memory preferences value is preserved by every
mutating operation. -/
theorem jsTruthy_applyMutOp (op : MutOp) (s : AppState)
    (h : jsTruthy s.userPrefs = true) :
    jsTruthy (applyMutOp op s).userPrefs = true := by
  cases op with
  | toggle id => rw [applyMutOp, toggleCoin_userPrefs]; exact h
  | remove id => rw [applyMutOp, removeCoin_userPrefs]; exact h
  | show24h b =>
    show jsTruthy (setProp s.userPrefs "show24h" (.bool b)) = true
    rw [jsTruthy_setProp]; exact h
  | sortOrder v =>
    show jsTruthy (setProp s.userPrefs "sortOrder" (.str v)) = true
    rw [jsTruthy_setProp]; exact h

theorem loadState_val_val (a p : JsValue) :
    loadState (.val a) (.val p) = .ok (jsOr a (.arr []), jsOr p defaultPrefs) := rfl

/-- C2: After every mutating operation (toggle, remove, setShow24h /
setSortOrder), deserializing the persisted values stored under
`selectedCoins` and `userPrefs` yields exactly the in-memory Selection Set
and Preferences; in particular, after `toggle("bitcoin")` on an empty
Selection Set, the stored value for `selectedCoins` is the text
`["bitcoin"]`.  (The hypothesis that the in-memory preferences value is
truthy holds in every reachable state, since the load of line 17 only ever
produces a truthy value.) -/
theorem persistence_round_trip (s : AppState) (op : MutOp)
    (h : jsTruthy s.userPrefs = true) :
    loadState (applyMutOp op s).storeSelected (applyMutOp op s).storePrefs =
      .ok (encodeSelected (applyMutOp op s).selectedCoins, (applyMutOp op s).userPrefs) ∧
    cellText (toggleCoin "bitcoin" initialState).storeSelected = some "[\"bitcoin\"]" := by
  constructor
  · obtain ⟨h1, h2⟩ := applyMutOp_store op s
    rw [h1, h2, loadState_val_val]
    have hp : jsTruthy (applyMutOp op s).userPrefs = true := jsTruthy_applyMutOp op s h
    have hsel : jsOr (encodeSelected (applyMutOp op s).selectedCoins) (.arr []) =
        encodeSelected (applyMutOp op s).selectedCoins := rfl
    rw [hsel, jsOr, if_pos hp]
  · rfl

/-- Witness for C2 at `op = toggle "bitcoin"` from the fresh empty state. -/
theorem persistence_round_trip_witness :
    loadState (applyMutOp (.toggle "bitcoin") initialState).storeSelected
        (applyMutOp (.toggle "bitcoin") initialState).storePrefs =
      .ok (encodeSelected (applyMutOp (.toggle "bitcoin") initialState).selectedCoins,
        (applyMutOp (.toggle "bitcoin") initialState).userPrefs) ∧
    cellText (toggleCoin "bitcoin" initialState).storeSelected = some "[\"bitcoin\"]" :=
  persistence_round_trip initialState (.toggle "bitcoin") rfl

/-- C3 counterexample: on the Selection Set `["bitcoin","ethereum"]`,
toggling `"bitcoin"` twice hits no capacity limit (no alert is shown), yet
the resulting sequence is `["ethereum","bitcoin"]`, not the prior state:
the re-added identifier is appended at the end, not restored to its
position. -/
theorem toggle_twice_not_involutive :
    (toggleCoin "bitcoin" (toggleCoin "bitcoin" (mkState ["bitcoin", "ethereum"]))).alerts =
      (mkState ["bitcoin", "ethereum"]).alerts ∧
    (toggleCoin "bitcoin" (toggleCoin "bitcoin" (mkState ["bitcoin", "ethereum"]))).selectedCoins =
      ["ethereum", "bitcoin"] ∧
    (toggleCoin "bitcoin" (toggleCoin "bitcoin" (mkState ["bitcoin", "ethereum"]))).selectedCoins ≠
      (mkState ["bitcoin", "ethereum"]).selectedCoins :=
  ⟨rfl, rfl, by decide⟩

/-- C3 amended: for a Selection Set satisfying the invariants (length at
most 5, duplicate-free), toggling an identifier twice with no capacity
rejection restores the Selection Set up to reordering (the result is a
permutation of the prior state, and no alert is shown); the exact sequence
is restored when the identifier was not previously a member. -/
theorem toggle_twice_perm (s : AppState) (id : String)
    (hlen : s.selectedCoins.length ≤ 5) (hnd : s.selectedCoins.Nodup)
    (hcap : id ∈ s.selectedCoins ∨ s.selectedCoins.length < 5) :
    (toggleCoin id (toggleCoin id s)).selectedCoins.Perm s.selectedCoins ∧
    (toggleCoin id (toggleCoin id s)).alerts = s.alerts ∧
    (id ∉ s.selectedCoins → (toggleCoin id (toggleCoin id s)).selectedCoins = s.selectedCoins) := by
  by_cases hm : id ∈ s.selectedCoins
  · have hc : s.selectedCoins.contains id = true := List.elem_iff.mpr hm
    have ht1 : (toggleCoin id s).selectedCoins = s.selectedCoins.filter (fun c => c != id) := by
      rw [toggleCoin_selectedCoins, if_pos hc]
    have hfe : s.selectedCoins.filter (fun c => c != id) = s.selectedCoins.erase id :=
      (hnd.erase_eq_filter id).symm
    have hm2 : id ∉ (toggleCoin id s).selectedCoins := by
      rw [ht1]
      simp
    have hc2 : (toggleCoin id s).selectedCoins.contains id = false := by
      cases hcc : (toggleCoin id s).selectedCoins.contains id with
      | false => rfl
      | true => exact absurd (List.elem_iff.mp hcc) hm2
    have hl2 : (toggleCoin id s).selectedCoins.length < 5 := by
      rw [ht1, hfe, List.length_erase_of_mem hm]
      have : 0 < s.selectedCoins.length := List.length_pos.mpr (List.ne_nil_of_mem hm)
      omega
    have ht2 : (toggleCoin id (toggleCoin id s)).selectedCoins =
        (toggleCoin id s).selectedCoins ++ [id] := by
      rw [toggleCoin_selectedCoins (s := toggleCoin id s), hc2]
      simp only [Bool.false_eq_true, if_false, if_pos hl2]
    refine ⟨?_, ?_, ?_⟩
    · rw [ht2, ht1, hfe]
      exact (List.perm_append_singleton id _).trans (List.perm_cons_erase hm).symm
    · rw [toggleCoin_alerts (s := toggleCoin id s), hc2]
      simp only [Bool.false_eq_true, if_false, if_pos hl2]
      rw [toggleCoin_alerts, if_pos hc]
    · intro habs
      exact absurd hm habs
  · have hl : s.selectedCoins.length < 5 := hcap.resolve_left hm
    have hc : s.selectedCoins.contains id = false := by
      cases hcc : s.selectedCoins.contains id with
      | false => rfl
      | true => exact absurd (List.elem_iff.mp hcc) hm
    have ht1 : (toggleCoin id s).selectedCoins = s.selectedCoins ++ [id] := by
      rw [toggleCoin_selectedCoins, hc]
      simp only [Bool.false_eq_true, if_false, if_pos hl]
    have hc2 : (toggleCoin id s).selectedCoins.contains id = true := by
      rw [ht1]
      exact List.elem_iff.mpr (List.mem_append_right _ (List.mem_singleton_self id))
    have hflt : s.selectedCoins.filter (fun c => c != id) = s.selectedCoins := by
      rw [List.filter_eq_self]
      intro a ha
      have : a ≠ id := fun hh => hm (hh ▸ ha)
      simpa using this
    have ht2 : (toggleCoin id (toggleCoin id s)).selectedCoins = s.selectedCoins := by
      rw [toggleCoin_selectedCoins (s := toggleCoin id s), if_pos hc2, ht1]
      rw [List.filter_append, hflt]
      simp
    refine ⟨ht2 ▸ List.Perm.refl _, ?_, fun _ => ht2⟩
    rw [toggleCoin_alerts (s := toggleCoin id s), if_pos hc2]
    rw [toggleCoin_alerts, hc]
    simp only [Bool.false_eq_true, if_false, if_pos hl]

/-- Witness for the amended C3 at a concrete state. -/
theorem toggle_twice_perm_witness :
    (toggleCoin "ethereum" (toggleCoin "ethereum" (mkState ["bitcoin"]))).selectedCoins.Perm
      (mkState ["bitcoin"]).selectedCoins ∧
    (toggleCoin "ethereum" (toggleCoin "ethereum" (mkState ["bitcoin"]))).alerts =
      (mkState ["bitcoin"]).alerts ∧
    ("ethereum" ∉ (mkState ["bitcoin"]).selectedCoins →
      (toggleCoin "ethereum" (toggleCoin "ethereum" (mkState ["bitcoin"]))).selectedCoins =
        (mkState ["bitcoin"]).selectedCoins) :=
  toggle_twice_perm (mkState ["bitcoin"]) "ethereum" (by decide) (by decide)
    (Or.inr (by decide))

/-- Line 13 in isolation: what the `selectedCoins` key decodes to,
`JSON.parse(localStorage.getItem('selectedCoins')) || []`. -/
def loadSelected (c : JStored) : Except Unit JsValue := do
  let v ← parseCell c
  .ok (jsOr v (.arr []))

/-- C4: toggling a new identifier when the Selection Set already has 5
members shows the blocking capacity notice, aborts the operation, and
leaves the Selection Set unchanged, both in memory and in what the
persisted `selectedCoins` key decodes to (the rewritten cell decodes to
the untouched selection, and is literally unchanged whenever it was
consistent with memory before the call). -/
theorem capacity_abort (s : AppState) (id : String)
    (hmem : id ∉ s.selectedCoins) (hlen : s.selectedCoins.length = 5) :
    (toggleCoin id s).selectedCoins = s.selectedCoins ∧
    (toggleCoin id s).alerts = s.alerts ++ [capacityMsg] ∧
    loadSelected (toggleCoin id s).storeSelected = .ok (encodeSelected s.selectedCoins) ∧
    (s.storeSelected = .val (encodeSelected s.selectedCoins) →
      (toggleCoin id s).storeSelected = s.storeSelected) := by
  have hc : s.selectedCoins.contains id = false := by
    cases hcc : s.selectedCoins.contains id with
    | false => rfl
    | true => exact absurd (List.elem_iff.mp hcc) hmem
  have hl : ¬s.selectedCoins.length < 5 := by omega
  have hsel : (toggleCoin id s).selectedCoins = s.selectedCoins := by
    rw [toggleCoin_selectedCoins, hc]
    simp only [Bool.false_eq_true, if_false, if_neg hl]
  have h1 : (toggleCoin id s).storeSelected =
      .val (encodeSelected (toggleCoin id s).selectedCoins) :=
    (applyMutOp_store (.toggle id) s).1
  refine ⟨hsel, ?_, ?_, ?_⟩
  · rw [toggleCoin_alerts, hc]
    simp only [Bool.false_eq_true, if_false, if_neg hl]
  · rw [h1, hsel]
    rfl
  · intro hcons
    rw [h1, hsel, hcons]

/-- Witness for C4: a sixth coin on a full Selection Set. -/
theorem capacity_abort_witness :
    (toggleCoin "f" (mkState ["a", "b", "c", "d", "e"])).selectedCoins =
      (mkState ["a", "b", "c", "d", "e"]).selectedCoins ∧
    (toggleCoin "f" (mkState ["a", "b", "c", "d", "e"])).alerts =
      (mkState ["a", "b", "c", "d", "e"]).alerts ++ [capacityMsg] ∧
    loadSelected (toggleCoin "f" (mkState ["a", "b", "c", "d", "e"])).storeSelected =
      .ok (encodeSelected (mkState ["a", "b", "c", "d", "e"]).selectedCoins) ∧
    ((mkState ["a", "b", "c", "d", "e"]).storeSelected =
        .val (encodeSelected (mkState ["a", "b", "c", "d", "e"]).selectedCoins) →
      (toggleCoin "f" (mkState ["a", "b", "c", "d", "e"])).storeSelected =
        (mkState ["a", "b", "c", "d", "e"]).storeSelected) :=
  capacity_abort (mkState ["a", "b", "c", "d", "e"]) "f" (by decide) (by decide)

/-- C5 counterexample: with malformed text under `selectedCoins` (and
nothing under `userPrefs`), the startup load does not substitute defaults —
`JSON.parse` throws and the whole load fails (there is no try/catch around
lines 13-20). -/
theorem load_malformed_throws :
    loadState .malformed .absent = .error () ∧
    loadState .malformed .absent ≠ .ok (.arr [], defaultPrefs) := by
  refine ⟨rfl, ?_⟩
  intro h
  exact Except.noConfusion h

/-- C5 amended: at startup, absent persisted content yields the defaults
(empty Selection Set, `{show24h:false, sortOrder:'market_cap_desc'}`) with
no user notice and no failure; malformed persisted content instead makes
`JSON.parse` throw, so the load fails rather than substituting defaults. -/
theorem load_defaults_on_absent :
    loadState .absent .absent = .ok (.arr [], defaultPrefs) ∧
    loadState .malformed .absent = .error () ∧
    loadState .absent .malformed = .error () :=
  ⟨rfl, rfl, rfl⟩

/-- `renderSelected` as an explicit case split on the card loop. -/
theorem renderSelected_eq (b : Bool) (sel : List String) (coins : List Coin) :
    renderSelected b sel coins =
      match (coins.filter (fun c => sel.contains c.id)).mapM (selectedCardHtml b) with
      | .error e => .error e
      | .ok cards => .ok (cards, sel.length != 5) := by
  unfold renderSelected
  cases (coins.filter (fun c => sel.contains c.id)).mapM (selectedCardHtml b) <;> rfl

/-- C6: whenever `renderSelected` completes, the compare button is enabled
(`disabled = false`) exactly when the Selection Set has 5 members
(line 124: `compareBtn.disabled = selectedCoins.length !== 5`). -/
theorem compare_enabled_iff_five (b : Bool) (sel : List String) (coins : List Coin)
    (r : List String × Bool) (h : renderSelected b sel coins = .ok r) :
    (r.2 = false ↔ sel.length = 5) := by
  rw [renderSelected_eq] at h
  cases hm : (coins.filter (fun c => sel.contains c.id)).mapM (selectedCardHtml b) with
  | error e =>
    rw [hm] at h
    exact Except.noConfusion h
  | ok cards =>
    rw [hm] at h
    have hr : r = (cards, sel.length != 5) := by
      cases h
      rfl
    rw [hr]
    simp

/-- Witness for C6 with a full Selection Set and an empty coin array. -/
theorem compare_enabled_iff_five_witness :
    ((([] : List String), false).2 = false ↔
      (["a", "b", "c", "d", "e"] : List String).length = 5) :=
  compare_enabled_iff_five false ["a", "b", "c", "d", "e"] [] ([], false) rfl

/-- After overwriting an existing field, the first field with the key holds
the assigned value. -/
theorem find_map_set (ps : List (String × JsValue)) (k : String) (x : JsValue)
    (ha : (ps.any fun q => q.1 = k) = true) :
    (ps.map (fun p => if p.1 = k then (k, x) else p)).find? (fun p => p.1 = k) = some (k, x) := by
  induction ps with
  | nil => simp at ha
  | cons p ps ih =>
    by_cases hp : p.1 = k
    · simp [List.find?, hp]
    · simp only [List.any_cons, Bool.or_eq_true, decide_eq_true_eq] at ha
      have ha2 : (ps.any fun q => q.1 = k) = true := by
        rcases ha with h | h
        · exact absurd h hp
        · exact h
      simp [List.find?, hp, ih ha2]

/-- After appending a fresh field, lookup of its key finds it. -/
theorem find_append_set (ps : List (String × JsValue)) (k : String) (x : JsValue)
    (ha : (ps.any fun q => q.1 = k) = false) :
    ((ps ++ [(k, x)]).find? (fun p => p.1 = k)) = some (k, x) := by
  induction ps with
  | nil => simp [List.find?]
  | cons p ps ih =>
    simp only [List.any_cons, Bool.or_eq_false_iff, decide_eq_false_iff_not] at ha
    simp [List.find?, ha.1, ih (by simp [ha.2])]

/-- Reading a property right after assigning it yields the assigned value
(on an object). -/
theorem getProp_setProp (fields : List (String × JsValue)) (k : String) (x : JsValue) :
    getProp (setProp (.obj fields) k x) k = x := by
  by_cases ha : (fields.any fun q => q.1 = k) = true
  · simp only [setProp, if_pos ha, getProp, find_map_set fields k x ha]
  · have ha2 : (fields.any fun q => q.1 = k) = false := by
      cases h : (fields.any fun q => q.1 = k) with
      | false => rfl
      | true => exact absurd h ha
    simp only [setProp, ha2, if_false, Bool.false_eq_true, getProp,
      find_append_set fields k x ha2]

/-- C7: a fetch cycle issues exactly one HTTP GET, whose query carries
`vs_currency=usd`, `order=` the current sort-order token, `per_page=50` and
`page=1` (line 34); and after the sort order is changed to `volume_desc`
(lines 160-164), the next fetch's `order` parameter is `volume_desc`. -/
theorem fetch_query_params (prefs : JsValue) (token : String)
    (h : getProp prefs "sortOrder" = .str token)
    (s : AppState) (fields : List (String × JsValue)) (h2 : s.userPrefs = .obj fields) :
    loadDataRequests prefs =
      [API_ENDPOINT ++ "?vs_currency=usd&order=" ++ token ++ "&per_page=50&page=1"] ∧
    loadDataRequests (setSortOrder "volume_desc" s).userPrefs =
      [API_ENDPOINT ++ "?vs_currency=usd&order=volume_desc&per_page=50&page=1"] := by
  have hjs : ∀ t : String, jsToString (.str t) = t := fun _ => rfl
  constructor
  · rw [loadDataRequests, loadDataUrl, h, hjs]
  · have hu : (setSortOrder "volume_desc" s).userPrefs =
        setProp s.userPrefs "sortOrder" (.str "volume_desc") := rfl
    rw [loadDataRequests, loadDataUrl, hu, h2,
      getProp_setProp fields "sortOrder" (.str "volume_desc"), hjs]
    rfl

/-- Witness for C7 from the default preferences. -/
theorem fetch_query_params_witness :
    loadDataRequests defaultPrefs =
      [API_ENDPOINT ++ "?vs_currency=usd&order=" ++ "market_cap_desc" ++ "&per_page=50&page=1"] ∧
    loadDataRequests (setSortOrder "volume_desc" initialState).userPrefs =
      [API_ENDPOINT ++ "?vs_currency=usd&order=volume_desc&per_page=50&page=1"] :=
  fetch_query_params defaultPrefs "market_cap_desc" rfl initialState
    [("show24h", .bool false), ("sortOrder", .str "market_cap_desc")] rfl

/-- C8 counterexample: with `userPrefs` stored as `{"show24h":true}` (a
truthy record missing `sortOrder`), the load of line 17 keeps the record
as-is, so after load the Preferences' `sortOrder` field is absent
(`undefined`), not defaulted: line 17 substitutes the whole default record
only when the parsed value is falsy, never field by field. -/
theorem prefs_field_not_defaulted :
    loadState .absent (.val (.obj [("show24h", .bool true)])) =
      .ok (.arr [], .obj [("show24h", .bool true)]) ∧
    getProp (.obj [("show24h", .bool true)]) "sortOrder" = .undefined ∧
    getProp defaultPrefs "sortOrder" = .str "market_cap_desc" :=
  ⟨rfl, rfl, rfl⟩

/-- C8 amended: after load the Preferences value is the stored record
itself whenever that parses to a truthy value, and the whole default record
(both fields populated: `show24h = false`, `sortOrder = 'market_cap_desc'`)
exactly when the key is absent or its value is falsy; defaulting is
whole-record, so a field absent from a stored truthy record stays absent. -/
theorem prefs_whole_record_default (j : JsValue) :
    loadState .absent .absent = .ok (.arr [], defaultPrefs) ∧
    getProp defaultPrefs "show24h" = .bool false ∧
    getProp defaultPrefs "sortOrder" = .str "market_cap_desc" ∧
    loadState .absent (.val j) = .ok (.arr [], if jsTruthy j then j else defaultPrefs) :=
  ⟨rfl, rfl, rfl, rfl⟩

/-- A coin with its 24h-change field erased. -/
def eraseChange (c : Coin) : Coin :=
  { c with price_change_percentage_24h := none }

theorem selectedCardHtml_eraseChange (c : Coin) :
    selectedCardHtml false (eraseChange c) = selectedCardHtml false c := rfl

theorem cryptoCardHtml_eraseChange (c : Coin) :
    cryptoCardHtml false (eraseChange c) = cryptoCardHtml false c := rfl

theorem mapM_selectedCardHtml_eraseChange (l : List Coin) :
    (l.map eraseChange).mapM (selectedCardHtml false) = l.mapM (selectedCardHtml false) := by
  induction l with
  | nil => rfl
  | cons c l ih =>
    simp only [List.map_cons, List.mapM_cons, selectedCardHtml_eraseChange, ih]

/-- C9: when `Preferences.show24h` is false, the cards produced by both
`renderCryptoList` (the full list) and `renderSelected` make no reference
to the coin's 24h-change field: the whole output is unchanged if every
coin's `price_change_percentage_24h` is erased (the conditional fragments
of lines 60 and 115 are empty). -/
theorem render_no_24h_reference (sel : List String) (coins : List Coin) :
    renderCryptoList false (coins.map eraseChange) = renderCryptoList false coins ∧
    renderSelected false sel (coins.map eraseChange) = renderSelected false sel coins := by
  constructor
  · unfold renderCryptoList
    rw [List.enum_map]
    induction coins.enum with
    | nil => rfl
    | cons p l ih =>
      simp only [List.map_cons, List.mapM_cons, ih]
      have : cryptoCardHtml false (Prod.map id eraseChange p).2 =
          cryptoCardHtml false p.2 := cryptoCardHtml_eraseChange p.2
      rw [this]
      rfl
  · unfold renderSelected
    have hfil : (coins.map eraseChange).filter (fun c => sel.contains c.id) =
        (coins.filter (fun c => sel.contains c.id)).map eraseChange := by
      rw [List.filter_map]
      rfl
    rw [hfil, mapM_selectedCardHtml_eraseChange]

/-- C10: removing an identifier — via `removeCoin`, or via `toggleCoin`
when it is present — deletes every occurrence of it and keeps the remaining
identifiers in their original relative order (the result is a sublist with
every other identifier's multiplicity preserved); in particular
`removeCoin "bitcoin"` on `["bitcoin","ethereum"]` yields `["ethereum"]`. -/
theorem remove_deletes_preserving_order (s : AppState) (id : String) :
    id ∉ (removeCoin id s).selectedCoins ∧
    (removeCoin id s).selectedCoins.Sublist s.selectedCoins ∧
    (∀ x, x ≠ id → (removeCoin id s).selectedCoins.count x = s.selectedCoins.count x) ∧
    (id ∈ s.selectedCoins → (toggleCoin id s).selectedCoins = (removeCoin id s).selectedCoins) ∧
    (removeCoin "bitcoin" (mkState ["bitcoin", "ethereum"])).selectedCoins = ["ethereum"] := by
  refine ⟨?_, ?_, ?_, ?_, rfl⟩
  · rw [removeCoin_selectedCoins]
    simp
  · rw [removeCoin_selectedCoins]
    exact List.filter_sublist _
  · intro x hx
    rw [removeCoin_selectedCoins, List.count_filter]
    simp [hx]
  · intro hm
    rw [toggleCoin_selectedCoins, if_pos (List.elem_iff.mpr hm), removeCoin_selectedCoins]

/-- Witness for C10 on the Selection Set `["bitcoin","ethereum"]`. -/
theorem remove_deletes_preserving_order_witness :
    "bitcoin" ∉ (removeCoin "bitcoin" (mkState ["bitcoin", "ethereum"])).selectedCoins ∧
    (removeCoin "bitcoin" (mkState ["bitcoin", "ethereum"])).selectedCoins.count "ethereum" =
      (mkState ["bitcoin", "ethereum"]).selectedCoins.count "ethereum" ∧
    (toggleCoin "bitcoin" (mkState ["bitcoin", "ethereum"])).selectedCoins =
      (removeCoin "bitcoin" (mkState ["bitcoin", "ethereum"])).selectedCoins :=
  ⟨(remove_deletes_preserving_order (mkState ["bitcoin", "ethereum"]) "bitcoin").1,
    (remove_deletes_preserving_order (mkState ["bitcoin", "ethereum"]) "bitcoin").2.2.1
      "ethereum" (by decide),
    (remove_deletes_preserving_order (mkState ["bitcoin", "ethereum"]) "bitcoin").2.2.2.1
      (by decide)⟩
